import Mathlib

/-!
Verification of the RMA (Return-Merchandise-Authorization) challenge/response
authenticator from `src/common/rma_auth.c`.

The module state, the two public operations `rma_create_challenge` and
`rma_try_authcode`, and the vendor-command handlers `get_challenge` and
`process_response` are embedded below as pure Lean functions over an explicit
state type.  Bytes are `Nat` values; buffers are `List Nat` of the buffer's
size, with memset/terminator zeros represented explicitly, matching the C
buffers byte for byte.

The cryptographic primitives (HMAC-SHA-256, X25519) and the CRC-5 group
checksum of the base-32 encoder are supplied by headers and libraries that are
not part of `src/`; they enter the model as components of an environment
record `RmaEnv`, so every theorem quantifies over them.  The encoder
`base32_encode` itself and the compile-time constants from `rma_auth.h` are
modelled from the spec (doc comments on each such definition say so).
-/

namespace RmaAuth

/-- Modelled from the spec: `SECOND` from `timer.h` (not under `src/`);
times are microseconds, so one second is 1000000. -/
def SECOND : Nat := 1000000

/-- Minimum time since boot or since the last challenge before making a new
one (`src/common/rma_auth.c:30`). -/
def CHALLENGE_INTERVAL : Nat := 10 * SECOND

/-- Number of tries to properly enter the auth code
(`src/common/rma_auth.c:33`). -/
def MAX_AUTHCODE_TRIES : Nat := 3

/-- Modelled from the spec: `RMA_AUTHCODE_CHARS` from `rma_auth.h`
(not under `src/`): the authcode is 8 ASCII characters. -/
def RMA_AUTHCODE_CHARS : Nat := 8

/-- Modelled from the spec: `RMA_AUTHCODE_BUF_SIZE` from `rma_auth.h`
(not under `src/`): the 8 authcode characters plus a terminating zero. -/
def RMA_AUTHCODE_BUF_SIZE : Nat := RMA_AUTHCODE_CHARS + 1

/-- Modelled from the spec: the challenge string on the wire is exactly 80
characters (spec section 6). -/
def RMA_CHALLENGE_CHARS : Nat := 80

/-- Modelled from the spec: `RMA_CHALLENGE_BUF_SIZE` from `rma_auth.h`
(not under `src/`): the 80 challenge characters plus a terminating zero;
`get_challenge` replies with `sizeof(challenge) - 1 = 80` bytes. -/
def RMA_CHALLENGE_BUF_SIZE : Nat := RMA_CHALLENGE_CHARS + 1

/-- Modelled from the spec: `RMA_CHALLENGE_VERSION` from `rma_auth.h`
(not under `src/`) is 0. -/
def RMA_CHALLENGE_VERSION : Nat := 0

/-- Modelled from the spec: `sizeof(struct rma_challenge)` from `rma_auth.h`
(not under `src/`).  The record's fields are `version_key_id` (1 byte),
`board_id` (4), `device_id` (8), `device_pub_key` (32), which is 45 bytes.
The spec's data-model table also lists 19 reserved bytes for a 64-byte total,
but that contradicts the spec's own statements that the padding rounds the
record up to a whole multiple of 5 bits (8 * 45 = 360 = 5 * 72, while
8 * 64 = 512 is not divisible by 5) and that the encoded challenge is exactly
80 characters (72 data symbols + 8 group checksums); the 45-byte record is
the unique size consistent with those, so it is the one modelled. -/
def rmaChallengeSizeof : Nat := 45

/-- `RMA_CHALLENGE_VKID_BYTE(version, keyid)` from `rma_auth.h` (not under
`src/`), modelled from the spec: `(version << 4) | (keyid & 0x0f)`. -/
def RMA_CHALLENGE_VKID_BYTE (version keyid : Nat) : Nat :=
  (version <<< 4) ||| (keyid &&& 0x0f)

/-- Unsigned 64-bit subtraction `a - b` as computed on `uint64_t` values,
with wraparound modulo 2^64. -/
def u64_sub (a b : Nat) : Nat := (a + (2 ^ 64 - b % 2 ^ 64)) % 2 ^ 64

/-- Modelled from the spec: the RFC 4648 base-32 alphabet map of `base32.c`
(not under `src/`): symbols 0..25 map to ASCII `A`..`Z`, symbols 26..31 map
to ASCII `2`..`7`. -/
def base32_char (sym : Nat) : Nat := if sym < 26 then 65 + sym else 50 + (sym - 26)

/-- Modelled from the spec: bit `i` (msb-first across the byte list) of the
source of `base32_encode`, taken as 0 beyond `srcbits_count` (incomplete
symbols are padded with 0 bits). -/
def srcBit (src : List Nat) (srcbits_count i : Nat) : Nat :=
  if i < srcbits_count then
    (if Nat.testBit (src.getD (i / 8) 0) (7 - i % 8) then 1 else 0)
  else 0

/-- Modelled from the spec: the `j`-th 5-bit data symbol of `base32_encode`,
built msb-first from source bits `5j .. 5j+4`. -/
def symbolAt (src : List Nat) (srcbits_count j : Nat) : Nat :=
  16 * srcBit src srcbits_count (5 * j) +
  8 * srcBit src srcbits_count (5 * j + 1) +
  4 * srcBit src srcbits_count (5 * j + 2) +
  2 * srcBit src srcbits_count (5 * j + 3) +
  srcBit src srcbits_count (5 * j + 4)

/-- Modelled from the spec: the data symbols of `base32_encode`: one 5-bit
symbol per 5 source bits, the final symbol padded with zero bits. -/
def dataSymbols (src : List Nat) (srcbits_count : Nat) : List Nat :=
  (List.range ((srcbits_count + 4) / 5)).map (symbolAt src srcbits_count)

/-- Split a list into consecutive chunks of `n` elements (a final chunk may
be shorter); with `n = 0` the whole list is one chunk. -/
def chunk (n : Nat) (xs : List Nat) : List (List Nat) :=
  if n = 0 then (if xs.isEmpty then [] else [xs])
  else (List.range ((xs.length + n - 1) / n)).map (fun i => (xs.drop (i * n)).take n)

/-- Modelled from the spec: interleave a 5-bit checksum symbol after every
group of `every` data symbols (a final partial group is also followed by a
checksum).  The checksum function `crc5` receives the zero-based group index
and the group's data symbols; the spec defers the exact CRC-5 polynomial to
the base-32 reference implementation (not under `src/`), so `crc5` is a
parameter of the model. -/
def withChecks (crc5 : Nat → List Nat → Nat) (every : Nat) (syms : List Nat) :
    List Nat :=
  ((chunk every syms).enum.map (fun p => p.2 ++ [crc5 p.1 p.2])).flatten

/-- Modelled from the spec: `base32_encode` from `base32.c` (not under
`src/`).  Consumes exactly `srcbits_count` bits of `src` msb-first, emits one
character per 5-bit symbol, inserts a checksum symbol after every
`add_crc_every` data symbols when `add_crc_every > 0`, and fails when the
destination cannot hold all produced characters plus a terminating zero. -/
def base32_encode (crc5 : Nat → List Nat → Nat) (destsize_chars : Nat)
    (src : List Nat) (srcbits_count : Nat) (add_crc_every : Nat) :
    Except Unit (List Nat) :=
  let syms := dataSymbols src srcbits_count
  let out := (if add_crc_every = 0 then syms
              else withChecks crc5 add_crc_every syms).map base32_char
  if destsize_chars < out.length + 1 then Except.error () else Except.ok out

/-- Return codes of the EC functions used in `rma_auth.c` (values from
`ec_error_list`, not under `src/`; only the constructors matter here). -/
inductive ECError
  | SUCCESS
  | UNKNOWN
  | TIMEOUT
  | INVAL
  | ACCESS_DENIED
deriving DecidableEq, Repr

/-- Vendor command return codes used by `get_challenge` and
`process_response` (`tpm_vendor_cmds.h`, not under `src/`; only the
constructors matter here).  `EC_CODE e` stands for the raw EC error value
that `get_challenge` forwards as `buf[0] = rv`. -/
inductive VendorRc
  | SUCCESS
  | BOGUS_ARGS
  | INTERNAL_ERROR
  | RESPONSE_TOO_BIG
  | EC_CODE (e : ECError)
deriving DecidableEq, Repr

/-- The module-scope mutable state of `rma_auth.c`
(`challenge`, `authcode`, `tries_left`, `last_challenge_time`,
`src/common/rma_auth.c:39-42`). -/
structure RmaState where
  challenge : List Nat
  authcode : List Nat
  tries_left : Nat
  last_challenge_time : Nat
deriving DecidableEq, Repr

/-- The `challenge` buffer after `memset(challenge, 0, sizeof(challenge))`. -/
def zeroChallenge : List Nat := List.replicate RMA_CHALLENGE_BUF_SIZE 0

/-- The `authcode` buffer after `memset(authcode, 0, sizeof(authcode))`. -/
def zeroAuthcode : List Nat := List.replicate RMA_AUTHCODE_BUF_SIZE 0

/-- The initial state: static buffers and counters are zero-initialized. -/
def initState : RmaState :=
  { challenge := zeroChallenge
    authcode := zeroAuthcode
    tries_left := 0
    last_challenge_time := 0 }

/-- The environment of the module: cryptographic primitives and compile-time
key configuration.  `hmac key msg` is HMAC-SHA-256 (32-byte tag), `x25519
scalar point` is X25519 scalar multiplication (32-byte output), `crc5` is the
group-checksum function of `base32.c`; none of these is under `src/`, so they
are parameters of the model.  `server_pub_key` and `server_key_id` are the
`CONFIG_RMA_AUTH_SERVER_*` constants (`src/common/rma_auth.c:36-37`). -/
structure RmaEnv where
  hmac : List Nat → List Nat → List Nat
  x25519 : List Nat → List Nat → List Nat
  crc5 : Nat → List Nat → Nat
  server_pub_key : List Nat
  server_key_id : Nat

/-- The per-call inputs of `rma_create_challenge` coming from external
collaborators: the monotonic time `get_time().val`, the `read_board_id`
result (`none` when the provider fails), the chip unique id, and the fresh
`X25519_keypair` output. -/
structure CreateInputs where
  t : Nat
  board_id : Option (List Nat)
  device_unique_id : List Nat
  eph_pub : List Nat
  eph_priv : List Nat

/-- `hash_buffer` (`src/common/rma_auth.c:59-69`): HMAC-SHA-256 with the
buffer as both key and message, truncated to `dest_size` bytes.  The C
`memcpy` always copies `dest_size` bytes out of the 32-byte `temp`; the
padding keeps the modelled copy the same length. -/
def hash_buffer (env : RmaEnv) (dest_size : Nat) (buffer : List Nat) : List Nat :=
  ((env.hmac buffer buffer) ++ List.replicate 32 0).take dest_size

/-- The `device_id` field as filled by `rma_create_challenge`
(`src/common/rma_auth.c:107-121`): device ids of at most 8 bytes are copied
verbatim onto the zeroed field, longer ids are replaced by the first 8 bytes
of `hash_buffer`. -/
def deviceIdField (env : RmaEnv) (device_id : List Nat) : List Nat :=
  if device_id.length ≤ 8 then
    device_id ++ List.replicate (8 - device_id.length) 0
  else
    hash_buffer env 8 device_id

/-- The challenge record `struct rma_challenge` (from `rma_auth.h`, not under
`src/`; field sizes from the spec's data model, see `rmaChallengeSizeof`). -/
structure rma_challenge where
  version_key_id : Nat
  board_id : List Nat
  device_id : List Nat
  device_pub_key : List Nat
deriving DecidableEq, Repr

/-- The wire bytes of a challenge record, in declaration order. -/
def rma_challenge.bytes (c : rma_challenge) : List Nat :=
  c.version_key_id :: (c.board_id ++ c.device_id ++ c.device_pub_key)

/-- The challenge record built by `rma_create_challenge`
(`src/common/rma_auth.c:98-124`) from the board id bytes, the device unique
id and the fresh ephemeral public key.  `memcpy` copies exactly 4
(resp. 32) bytes into `board_id` (resp. `device_pub_key`); the take/pad
normalizations model those fixed-size copies. -/
def mkChallenge (env : RmaEnv) (inp : CreateInputs) (bid : List Nat) :
    rma_challenge :=
  { version_key_id :=
      RMA_CHALLENGE_VKID_BYTE RMA_CHALLENGE_VERSION env.server_key_id
    board_id := (bid ++ List.replicate 4 0).take 4
    device_id := deviceIdField env inp.device_unique_id
    device_pub_key := (inp.eph_pub ++ List.replicate 32 0).take 32 }

/-- `rma_create_challenge` (`src/common/rma_auth.c:77-145`), step for step:
clear both buffers, rate-limit on the `uint64_t` difference of monotonic
times, record the new time, read the board id, build the record, encode the
challenge with a checksum group parameter of 9, derive the shared secret,
MAC the record bytes after the leading version/key-id byte, encode the
40-bit authcode without checksums, and finally reset `tries_left`. -/
def rma_create_challenge (env : RmaEnv) (inp : CreateInputs) (st : RmaState) :
    ECError × RmaState :=
  let st1 : RmaState := { st with challenge := zeroChallenge, authcode := zeroAuthcode }
  if u64_sub inp.t st1.last_challenge_time < CHALLENGE_INTERVAL then
    (ECError.TIMEOUT, st1)
  else
    let st2 : RmaState := { st1 with last_challenge_time := inp.t }
    match inp.board_id with
    | none => (ECError.UNKNOWN, st2)
    | some bid =>
      let c := mkChallenge env inp bid
      match base32_encode env.crc5 RMA_CHALLENGE_BUF_SIZE c.bytes
          (8 * rmaChallengeSizeof) 9 with
      | Except.error _ => (ECError.UNKNOWN, st2)
      | Except.ok chars =>
        let st3 : RmaState :=
          { st2 with challenge :=
              chars ++ List.replicate (RMA_CHALLENGE_BUF_SIZE - chars.length) 0 }
        let secret := env.x25519 ((inp.eph_priv ++ List.replicate 32 0).take 32)
            env.server_pub_key
        let tag := env.hmac secret (c.bytes.drop 1)
        match base32_encode env.crc5 RMA_AUTHCODE_BUF_SIZE tag
            (RMA_AUTHCODE_CHARS * 5) 0 with
        | Except.error _ => (ECError.UNKNOWN, st3)
        | Except.ok ac =>
          (ECError.SUCCESS,
            { st3 with
              authcode := ac ++ List.replicate (RMA_AUTHCODE_BUF_SIZE - ac.length) 0
              tries_left := MAX_AUTHCODE_TRIES })

/-- Modelled from the spec: `safe_memcmp` from `util.c` (not under `src/`);
a constant-time comparison that accumulates the byte differences of all `n`
positions and returns 0 exactly when every byte matches. -/
def safe_memcmp (a b : List Nat) (n : Nat) : Nat :=
  ((List.range n).map (fun i => Nat.xor (a.getD i 0) (b.getD i 0))).foldl
    (fun x y => x ||| y) 0

/-- `rma_try_authcode` (`src/common/rma_auth.c:152-179`): deny when out of
tries or when no authcode is stored; otherwise compare with `safe_memcmp`,
decrement on mismatch, zero `tries_left` on match, and clear both buffers
whenever `tries_left` ends up 0. -/
def rma_try_authcode (st : RmaState) (code : List Nat) : ECError × RmaState :=
  if st.tries_left = 0 then (ECError.ACCESS_DENIED, st)
  else if st.authcode.getD 0 0 = 0 then (ECError.ACCESS_DENIED, st)
  else if safe_memcmp st.authcode code RMA_AUTHCODE_CHARS ≠ 0 then
    let st1 : RmaState := { st with tries_left := st.tries_left - 1 }
    (ECError.INVAL,
      if st1.tries_left = 0 then
        { st1 with challenge := zeroChallenge, authcode := zeroAuthcode }
      else st1)
  else
    (ECError.SUCCESS,
      { st with tries_left := 0, challenge := zeroChallenge, authcode := zeroAuthcode })

/-- The result of `get_challenge`: the vendor return code, the value of
`*buf_size` on exit, the challenge characters copied into the reply buffer
(empty on error paths, where the single reply byte is the return code
itself), the module state after the call, and the characters emitted on the
console by the `CPRINTF` loops. -/
structure GetChallengeResult where
  rc : VendorRc
  response_size : Nat
  reply : List Nat
  state : RmaState
  console : List Nat
deriving DecidableEq, Repr

/-- `get_challenge` (`src/common/rma_auth.c:186-218`): reject reply buffers
smaller than the challenge buffer before anything else, then run
`rma_create_challenge`, forward its error as a single-byte reply, and on
success reply with the `sizeof(challenge) - 1` challenge characters while
printing the generated challenge and the expected authcode on the console. -/
def get_challenge (env : RmaEnv) (inp : CreateInputs) (st : RmaState)
    (buf_size : Nat) : GetChallengeResult :=
  if buf_size < RMA_CHALLENGE_BUF_SIZE then
    { rc := VendorRc.RESPONSE_TOO_BIG, response_size := 1, reply := [],
      state := st, console := [] }
  else
    let r := rma_create_challenge env inp st
    if r.1 ≠ ECError.SUCCESS then
      { rc := VendorRc.EC_CODE r.1, response_size := 1, reply := [],
        state := r.2, console := [] }
    else
      let reply := r.2.challenge.take (RMA_CHALLENGE_BUF_SIZE - 1)
      { rc := VendorRc.SUCCESS
        response_size := RMA_CHALLENGE_BUF_SIZE - 1
        reply := reply
        state := r.2
        console := reply ++ r.2.authcode.take RMA_AUTHCODE_CHARS }

/-- The result of `process_response`: the vendor return code, the value of
`*response_size` on exit (1 on error paths, where the single reply byte is
the return code itself), and the module state after the call. -/
structure ProcessResponseResult where
  rc : VendorRc
  response_size : Nat
  state : RmaState
deriving DecidableEq, Repr

/-- `process_response` (`src/common/rma_auth.c:224-250`): reject payloads
whose size is not exactly `RMA_AUTHCODE_CHARS` with `VENDOR_RC_BOGUS_ARGS`
before touching the session, otherwise run `rma_try_authcode` and map its
result to the vendor return code. -/
def process_response (buf : List Nat) (input_size : Nat) (st : RmaState) :
    ProcessResponseResult :=
  if input_size ≠ RMA_AUTHCODE_CHARS then
    { rc := VendorRc.BOGUS_ARGS, response_size := 1, state := st }
  else
    let r := rma_try_authcode st buf
    if r.1 = ECError.SUCCESS then
      { rc := VendorRc.SUCCESS, response_size := 0, state := r.2 }
    else
      { rc := VendorRc.INTERNAL_ERROR, response_size := 1, state := r.2 }

/-- States reachable from the initial state by any sequence of
`rma_create_challenge` and `rma_try_authcode` calls, with arbitrary
per-call inputs. -/
inductive Reachable (env : RmaEnv) : RmaState → Prop
  | init : Reachable env initState
  | create (inp : CreateInputs) {s : RmaState} :
      Reachable env s → Reachable env (rma_create_challenge env inp s).2
  | tryauth (code : List Nat) {s : RmaState} :
      Reachable env s → Reachable env (rma_try_authcode s code).2

/-- States reachable from a given state by `rma_try_authcode` calls and by
`rma_create_challenge` calls that do not succeed — the executions during
which, per the lockout claim, no new challenge is issued. -/
inductive ReachNoNewChallenge (env : RmaEnv) : RmaState → RmaState → Prop
  | refl (s : RmaState) : ReachNoNewChallenge env s s
  | tryauth (code : List Nat) {s s' : RmaState} :
      ReachNoNewChallenge env s s' →
      ReachNoNewChallenge env s (rma_try_authcode s' code).2
  | createFail (inp : CreateInputs) {s s' : RmaState}
      (h : (rma_create_challenge env inp s').1 ≠ ECError.SUCCESS) :
      ReachNoNewChallenge env s s' →
      ReachNoNewChallenge env s (rma_create_challenge env inp s').2

/-- A concrete environment used to witness the theorems: degenerate crypto
primitives (all-zero tags and shared secrets, zero checksums) and the
spec's scenario constants `server_pub_key = 0x01...01`,
`server_key_id = 3`. -/
def envC : RmaEnv :=
  { hmac := fun _ _ => List.replicate 32 0
    x25519 := fun _ _ => List.replicate 32 0
    crc5 := fun _ _ => 0
    server_pub_key := List.replicate 32 1
    server_key_id := 3 }

/-- Concrete inputs for a first, successful `rma_create_challenge` call:
time exactly `CHALLENGE_INTERVAL` after boot, board id `0x0A 0B 0C 0D`,
8-byte device unique id `01..08`, and a fixed ephemeral keypair. -/
def inpC : CreateInputs :=
  { t := CHALLENGE_INTERVAL
    board_id := some [10, 11, 12, 13]
    device_unique_id := [1, 2, 3, 4, 5, 6, 7, 8]
    eph_pub := List.replicate 32 2
    eph_priv := List.replicate 32 3 }

/-- The same inputs one microsecond later: a call rate-limited against the
state `stArmed` produced by `inpC`. -/
def inpSoon : CreateInputs := { inpC with t := CHALLENGE_INTERVAL + 1 }

/-- The armed state after the successful concrete `rma_create_challenge`. -/
def stArmed : RmaState := (rma_create_challenge envC inpC initState).2

/-- The state after a rate-limited `rma_create_challenge` on the armed
state: the buffers have been cleared although the call failed. -/
def stBroken : RmaState := (rma_create_challenge envC inpSoon stArmed).2

/-- Inputs for a call during the first 10 seconds after boot. -/
def inpEarly : CreateInputs := { inpC with t := 5 }

/-- A submitted code that mismatches the concrete authcode `AAAAAAAA`. -/
def wrongCode : List Nat := List.replicate 8 66

/-- The state after three mismatched tries on the armed state. -/
def stLocked : RmaState :=
  (rma_try_authcode
    (rma_try_authcode (rma_try_authcode stArmed wrongCode).2 wrongCode).2
    wrongCode).2

/-- A rate-limited `rma_create_challenge` returns `EC_ERROR_TIMEOUT` with
the buffers cleared and everything else untouched. -/
theorem create_rate_limited (env : RmaEnv) (inp : CreateInputs) (st : RmaState)
    (h : u64_sub inp.t st.last_challenge_time < CHALLENGE_INTERVAL) :
    rma_create_challenge env inp st =
      (ECError.TIMEOUT,
        { st with challenge := zeroChallenge, authcode := zeroAuthcode }) := by
  unfold rma_create_challenge
  simp [h]

/-- C1 (amended): a `rma_create_challenge` call within `CHALLENGE_INTERVAL`
of `last_challenge_time` fails with `EC_ERROR_TIMEOUT` and leaves
`last_challenge_time` and `tries_left` unchanged, but it clears the stored
challenge and authcode to all-zero bytes before the rate-limit check, so
those buffers do change whenever they were previously non-zero. -/
theorem c1_rate_limited_state (env : RmaEnv) (inp : CreateInputs)
    (st : RmaState)
    (h : u64_sub inp.t st.last_challenge_time < CHALLENGE_INTERVAL) :
    (rma_create_challenge env inp st).1 = ECError.TIMEOUT ∧
    (rma_create_challenge env inp st).2.last_challenge_time =
      st.last_challenge_time ∧
    (rma_create_challenge env inp st).2.tries_left = st.tries_left ∧
    (rma_create_challenge env inp st).2.challenge = zeroChallenge ∧
    (rma_create_challenge env inp st).2.authcode = zeroAuthcode := by
  rw [create_rate_limited env inp st h]
  exact ⟨rfl, rfl, rfl, rfl, rfl⟩

/-- C1 counterexample: from the armed state, a call one microsecond after
the last challenge is rate-limited, yet it changes both the stored
challenge and the stored authcode (they are cleared). -/
theorem c1_counterexample :
    u64_sub inpSoon.t stArmed.last_challenge_time < CHALLENGE_INTERVAL ∧
    (rma_create_challenge envC inpSoon stArmed).1 = ECError.TIMEOUT ∧
    (rma_create_challenge envC inpSoon stArmed).2.authcode ≠ stArmed.authcode ∧
    (rma_create_challenge envC inpSoon stArmed).2.challenge ≠ stArmed.challenge := by
  decide

/-- C1 witness: the amended statement at the concrete rate-limited call. -/
theorem c1_rate_limited_state_witness :
    (rma_create_challenge envC inpSoon stArmed).1 = ECError.TIMEOUT ∧
    (rma_create_challenge envC inpSoon stArmed).2.last_challenge_time =
      stArmed.last_challenge_time ∧
    (rma_create_challenge envC inpSoon stArmed).2.tries_left = stArmed.tries_left ∧
    (rma_create_challenge envC inpSoon stArmed).2.challenge = zeroChallenge ∧
    (rma_create_challenge envC inpSoon stArmed).2.authcode = zeroAuthcode :=
  c1_rate_limited_state envC inpSoon stArmed (by decide)

/-- C10: in the initial state `last_challenge_time` is 0, so every
`rma_create_challenge` call with monotonic time below `CHALLENGE_INTERVAL`
fails with `EC_ERROR_TIMEOUT` although no challenge was ever issued. -/
theorem c10_boot_rate_limit (env : RmaEnv) (inp : CreateInputs)
    (h : inp.t < CHALLENGE_INTERVAL) :
    (rma_create_challenge env inp initState).1 = ECError.TIMEOUT := by
  have h0 : u64_sub inp.t initState.last_challenge_time < CHALLENGE_INTERVAL := by
    show (inp.t + (2 ^ 64 - 0 % 2 ^ 64)) % 2 ^ 64 < CHALLENGE_INTERVAL
    simp only [Nat.zero_mod, Nat.sub_zero, Nat.add_mod_right]
    exact lt_of_le_of_lt (Nat.mod_le _ _) h
  rw [create_rate_limited env inp initState h0]

/-- C10 witness: a call 5 microseconds after boot is rejected. -/
theorem c10_boot_rate_limit_witness :
    (rma_create_challenge envC inpEarly initState).1 = ECError.TIMEOUT :=
  c10_boot_rate_limit envC inpEarly (by decide)

/-- C8 (amended): a create-challenge request whose reply buffer is smaller
than the challenge buffer is answered with `VENDOR_RC_RESPONSE_TOO_BIG` as a
single-byte reply, but the check happens before `rma_create_challenge` runs,
so the whole session state is unchanged: the stored challenge is not
cleared, and a previously armed session stays armed. -/
theorem c8_reply_too_small (env : RmaEnv) (inp : CreateInputs) (st : RmaState)
    (bs : Nat) (h : bs < RMA_CHALLENGE_BUF_SIZE) :
    get_challenge env inp st bs =
      { rc := VendorRc.RESPONSE_TOO_BIG, response_size := 1, reply := [],
        state := st, console := [] } := by
  unfold get_challenge
  simp [h]

/-- C8 counterexample: with an armed session and a 1-byte reply buffer, the
request fails with `RESPONSE_TOO_BIG` but the stored challenge is not
all-zero — it still holds the previous challenge, so the session is not
left IDLE with the challenge cleared. -/
theorem c8_counterexample :
    (get_challenge envC inpC stArmed 1).rc = VendorRc.RESPONSE_TOO_BIG ∧
    (get_challenge envC inpC stArmed 1).response_size = 1 ∧
    (get_challenge envC inpC stArmed 1).state.challenge.getD 0 0 ≠ 0 ∧
    (get_challenge envC inpC stArmed 1).state.challenge ≠ zeroChallenge := by
  decide

/-- C8 witness: the amended statement at the concrete armed state. -/
theorem c8_reply_too_small_witness :
    get_challenge envC inpC stArmed 1 =
      { rc := VendorRc.RESPONSE_TOO_BIG, response_size := 1, reply := [],
        state := stArmed, console := [] } :=
  c8_reply_too_small envC inpC stArmed 1 (by decide)

/-- C9: a verify request whose payload length differs from
`RMA_AUTHCODE_CHARS` returns `VENDOR_RC_BOGUS_ARGS` as a single-byte reply
and leaves the state untouched, so `tries_left`, the stored challenge and
the stored authcode are all unchanged. -/
theorem c9_bad_length (buf : List Nat) (n : Nat) (st : RmaState)
    (h : n ≠ RMA_AUTHCODE_CHARS) :
    process_response buf n st =
      { rc := VendorRc.BOGUS_ARGS, response_size := 1, state := st } := by
  unfold process_response
  simp [h]

/-- C9 witness: a 7-byte payload against the armed state. -/
theorem c9_bad_length_witness :
    process_response (List.replicate 7 65) 7 stArmed =
      { rc := VendorRc.BOGUS_ARGS, response_size := 1, state := stArmed } :=
  c9_bad_length (List.replicate 7 65) 7 stArmed (by decide)

/-- With `tries_left = 0`, `rma_try_authcode` denies access and does not
touch the state. -/
theorem try_tries_zero (st : RmaState) (code : List Nat)
    (h : st.tries_left = 0) :
    rma_try_authcode st code = (ECError.ACCESS_DENIED, st) := by
  unfold rma_try_authcode
  simp [h]

/-- `rma_try_authcode` never increases `tries_left`. -/
theorem try_tries_le (st : RmaState) (code : List Nat) :
    (rma_try_authcode st code).2.tries_left ≤ st.tries_left := by
  unfold rma_try_authcode
  dsimp only
  by_cases h1 : st.tries_left = 0
  · rw [if_pos h1]
  rw [if_neg h1]
  by_cases h2 : st.authcode.getD 0 0 = 0
  · rw [if_pos h2]
  rw [if_neg h2]
  by_cases h3 : safe_memcmp st.authcode code RMA_AUTHCODE_CHARS ≠ 0
  · rw [if_pos h3]
    by_cases h4 : st.tries_left - 1 = 0
    · rw [if_pos h4]; exact Nat.sub_le _ _
    · rw [if_neg h4]; exact Nat.sub_le _ _
  · rw [if_neg h3]; exact Nat.zero_le _

/-- An `EC_ERROR_INVAL` result of `rma_try_authcode` implies the call had
tries available and consumed exactly one. -/
theorem try_inval (st : RmaState) (code : List Nat)
    (h : (rma_try_authcode st code).1 = ECError.INVAL) :
    0 < st.tries_left ∧
      (rma_try_authcode st code).2.tries_left = st.tries_left - 1 := by
  unfold rma_try_authcode at h ⊢
  by_cases h1 : st.tries_left = 0
  · rw [if_pos h1] at h; simp at h
  rw [if_neg h1] at h ⊢
  by_cases h2 : st.authcode.getD 0 0 = 0
  · rw [if_pos h2] at h; simp at h
  rw [if_neg h2] at h ⊢
  by_cases h3 : safe_memcmp st.authcode code RMA_AUTHCODE_CHARS ≠ 0
  · rw [if_pos h3]
    refine ⟨Nat.pos_of_ne_zero h1, ?_⟩
    dsimp only
    by_cases h4 : st.tries_left - 1 = 0
    · rw [if_pos h4]
    · rw [if_neg h4]
  · rw [if_neg h3] at h; simp at h

/-- Every branch of `rma_try_authcode` either leaves the state unchanged,
or clears the authcode, or keeps the authcode while leaving at least one
try. -/
theorem try_cases (st : RmaState) (code : List Nat) :
    (rma_try_authcode st code).2 = st ∨
    (rma_try_authcode st code).2.authcode = zeroAuthcode ∨
    ((rma_try_authcode st code).2.authcode = st.authcode ∧
      0 < (rma_try_authcode st code).2.tries_left) := by
  unfold rma_try_authcode
  by_cases h1 : st.tries_left = 0
  · rw [if_pos h1]; left; rfl
  rw [if_neg h1]
  by_cases h2 : st.authcode.getD 0 0 = 0
  · rw [if_pos h2]; left; rfl
  rw [if_neg h2]
  by_cases h3 : safe_memcmp st.authcode code RMA_AUTHCODE_CHARS ≠ 0
  · rw [if_pos h3]
    dsimp only
    by_cases h4 : st.tries_left - 1 = 0
    · rw [if_pos h4]; right; left; rfl
    · rw [if_neg h4]; right; right; exact ⟨rfl, Nat.pos_of_ne_zero h4⟩
  · rw [if_neg h3]; right; left; rfl

/-- Every run of `rma_create_challenge` either succeeds with `tries_left`
reset to `MAX_AUTHCODE_TRIES`, or fails with `tries_left` untouched and the
stored authcode cleared. -/
theorem create_cases (env : RmaEnv) (inp : CreateInputs) (st : RmaState) :
    ((rma_create_challenge env inp st).1 = ECError.SUCCESS ∧
      (rma_create_challenge env inp st).2.tries_left = MAX_AUTHCODE_TRIES) ∨
    ((rma_create_challenge env inp st).1 ≠ ECError.SUCCESS ∧
      (rma_create_challenge env inp st).2.tries_left = st.tries_left ∧
      (rma_create_challenge env inp st).2.authcode = zeroAuthcode) := by
  unfold rma_create_challenge
  dsimp only
  by_cases h1 : u64_sub inp.t st.last_challenge_time < CHALLENGE_INTERVAL
  · rw [if_pos h1]; right; exact ⟨by simp, rfl, rfl⟩
  rw [if_neg h1]
  cases hb : inp.board_id with
  | none => right; exact ⟨by simp, rfl, rfl⟩
  | some bid =>
    dsimp only
    cases hc : base32_encode env.crc5 RMA_CHALLENGE_BUF_SIZE
        (mkChallenge env inp bid).bytes (8 * rmaChallengeSizeof) 9 with
    | error e => right; exact ⟨by simp, rfl, rfl⟩
    | ok chars =>
      dsimp only
      cases ha : base32_encode env.crc5 RMA_AUTHCODE_BUF_SIZE
          (env.hmac
            (env.x25519 ((inp.eph_priv ++ List.replicate 32 0).take 32)
              env.server_pub_key)
            ((mkChallenge env inp bid).bytes.drop 1))
          (RMA_AUTHCODE_CHARS * 5) 0 with
      | error e => right; exact ⟨by simp, rfl, rfl⟩
      | ok ac => left; exact ⟨rfl, rfl⟩

/-- A failed `rma_create_challenge` leaves `tries_left` unchanged. -/
theorem create_fail_tries (env : RmaEnv) (inp : CreateInputs) (st : RmaState)
    (h : (rma_create_challenge env inp st).1 ≠ ECError.SUCCESS) :
    (rma_create_challenge env inp st).2.tries_left = st.tries_left := by
  rcases create_cases env inp st with ⟨h1, _⟩ | ⟨_, h2, _⟩
  · exact absurd h1 h
  · exact h2

/-- In every reachable state, `tries_left` is at most
`MAX_AUTHCODE_TRIES`. -/
theorem reachable_tries_le (env : RmaEnv) (s : RmaState)
    (h : Reachable env s) : s.tries_left ≤ MAX_AUTHCODE_TRIES := by
  induction h with
  | init => exact Nat.zero_le _
  | create inp hs ih =>
      rcases create_cases env inp _ with ⟨_, h2⟩ | ⟨_, h2, _⟩ <;> rw [h2]
      exact ih
  | tryauth code hs ih =>
      exact Nat.le_trans (try_tries_le _ code) ih

/-- C2 (amended): in every reachable state, a non-empty stored authcode
(first byte non-zero) implies `tries_left > 0`.  The converse direction of
the original claim is false: a rate-limited or otherwise failed
`rma_create_challenge` clears the authcode while leaving a positive
`tries_left` behind (see the counterexample). -/
theorem c2_authcode_nonempty_tries (env : RmaEnv) (s : RmaState)
    (h : Reachable env s) (ha : s.authcode.getD 0 0 ≠ 0) :
    0 < s.tries_left := by
  induction h with
  | init => exact absurd rfl ha
  | create inp hs ih =>
      rcases create_cases env inp _ with ⟨_, h2⟩ | ⟨_, _, h3⟩
      · rw [h2]; exact Nat.succ_pos _
      · rw [h3] at ha; exact absurd rfl ha
  | tryauth code hs ih =>
      rcases try_cases _ code with h1 | h2 | ⟨_, h3⟩
      · rw [h1] at ha ⊢; exact ih ha
      · rw [h2] at ha; exact absurd rfl ha
      · exact h3

/-- C2 counterexample: the reachable state after a successful challenge
followed by a rate-limited one has `tries_left = 3` but an all-zero
authcode, violating the claimed equivalence. -/
theorem c2_counterexample :
    Reachable envC stBroken ∧
    ¬ (stBroken.authcode.getD 0 0 ≠ 0 ↔ 0 < stBroken.tries_left) := by
  refine ⟨?_, by decide⟩
  exact Reachable.create inpSoon (Reachable.create inpC Reachable.init)

/-- C2 witness: the amended statement at the concrete armed state. -/
theorem c2_authcode_nonempty_tries_witness : 0 < stArmed.tries_left :=
  c2_authcode_nonempty_tries envC stArmed
    (Reachable.create inpC Reachable.init) (by decide)

/-- `tries_left = 0` is preserved by any sequence of `rma_try_authcode`
calls and failing `rma_create_challenge` calls. -/
theorem reachNoNew_tries_zero (env : RmaEnv) {s s' : RmaState}
    (h : ReachNoNewChallenge env s s') : s.tries_left = 0 → s'.tries_left = 0 := by
  induction h with
  | refl => exact fun h0 => h0
  | tryauth code hr ih =>
      intro h0
      rw [try_tries_zero _ code (ih h0)]
      exact ih h0
  | createFail inp hfail hr ih =>
      intro h0
      rw [create_fail_tries _ _ _ hfail]
      exact ih h0

/-- C5: from any reachable state, three consecutive `EC_ERROR_INVAL`
results of `rma_try_authcode` exhaust the tries, and from then on every
`rma_try_authcode` call returns `EC_ERROR_ACCESS_DENIED` as long as no
intervening `rma_create_challenge` succeeds. -/
theorem c5_lockout (env : RmaEnv) (s : RmaState) (hreach : Reachable env s)
    (c1 c2 c3 : List Nat)
    (h1 : (rma_try_authcode s c1).1 = ECError.INVAL)
    (h2 : (rma_try_authcode (rma_try_authcode s c1).2 c2).1 = ECError.INVAL)
    (h3 : (rma_try_authcode
        (rma_try_authcode (rma_try_authcode s c1).2 c2).2 c3).1 =
      ECError.INVAL) :
    ∀ s' : RmaState,
      ReachNoNewChallenge env
        (rma_try_authcode
          (rma_try_authcode (rma_try_authcode s c1).2 c2).2 c3).2 s' →
      ∀ code : List Nat,
        (rma_try_authcode s' code).1 = ECError.ACCESS_DENIED := by
  have t0 : s.tries_left ≤ MAX_AUTHCODE_TRIES := reachable_tries_le env s hreach
  have tm : MAX_AUTHCODE_TRIES = 3 := rfl
  have a1 := try_inval s c1 h1
  have a2 := try_inval (rma_try_authcode s c1).2 c2 h2
  have a3 := try_inval (rma_try_authcode (rma_try_authcode s c1).2 c2).2 c3 h3
  have hz : (rma_try_authcode
      (rma_try_authcode (rma_try_authcode s c1).2 c2).2 c3).2.tries_left = 0 := by
    omega
  intro s' hr code
  have hz' : s'.tries_left = 0 := reachNoNew_tries_zero env hr hz
  rw [try_tries_zero s' code hz']


/-- C5 witness: after three wrong codes against the concrete armed state,
a further attempt is denied. -/
theorem c5_lockout_witness :
    (rma_try_authcode stLocked [0]).1 = ECError.ACCESS_DENIED :=
  c5_lockout envC stArmed (Reachable.create inpC Reachable.init)
    wrongCode wrongCode wrongCode (by decide) (by decide) (by decide)
    stLocked (ReachNoNewChallenge.refl _) [0]

/-- The number of data symbols produced for a given bit count. -/
theorem dataSymbols_length (src : List Nat) (n : Nat) :
    (dataSymbols src n).length = (n + 4) / 5 := by
  unfold dataSymbols
  rw [List.length_map, List.length_range]

/-- A source bit below index 40 only looks at the first five bytes. -/
theorem srcBit_take_five (tag : List Nat) (i : Nat)
    (hi : i < RMA_AUTHCODE_CHARS * 5) :
    srcBit (tag.take 5) (RMA_AUTHCODE_CHARS * 5) i =
      srcBit tag (RMA_AUTHCODE_CHARS * 5) i := by
  have h40 : RMA_AUTHCODE_CHARS * 5 = 40 := rfl
  unfold srcBit
  rw [if_pos hi, if_pos hi]
  have hg : (tag.take 5).getD (i / 8) 0 = tag.getD (i / 8) 0 := by
    rw [List.getD_eq_getElem?_getD, List.getD_eq_getElem?_getD,
      List.getElem?_take, if_pos (by omega)]
  rw [hg]

/-- The 40-bit truncation of `base32_encode` really is a function of the
first five tag bytes only: the symbols of the full 32-byte HMAC tag with
`srcbits_count = 40` agree with those of its 5-byte prefix. -/
theorem dataSymbols_first_five (tag : List Nat) :
    dataSymbols (tag.take 5) (RMA_AUTHCODE_CHARS * 5) =
      dataSymbols tag (RMA_AUTHCODE_CHARS * 5) := by
  unfold dataSymbols
  apply List.map_congr_left
  intro j hj
  rw [List.mem_range] at hj
  have hj8 : j < 8 := by
    have h8 : (RMA_AUTHCODE_CHARS * 5 + 4) / 5 = 8 := rfl
    omega
  unfold symbolAt
  rw [srcBit_take_five tag (5 * j) (by omega),
    srcBit_take_five tag (5 * j + 1) (by omega),
    srcBit_take_five tag (5 * j + 2) (by omega),
    srcBit_take_five tag (5 * j + 3) (by omega),
    srcBit_take_five tag (5 * j + 4) (by omega)]

/-- C3: on a successful `rma_create_challenge`, the stored authcode is the
8-character base-32 encoding (no checksum symbols, final terminator byte 0)
of the first 40 bits of the HMAC-SHA-256 tag keyed with the X25519 shared
secret — derived from the fresh ephemeral private key and the server public
key — over the challenge record bytes with the leading `version_key_id`
byte excluded (`bytes.drop 1`). -/
theorem c3_authcode_derivation (env : RmaEnv) (inp : CreateInputs)
    (st : RmaState) (bid : List Nat) (hb : inp.board_id = some bid)
    (hs : (rma_create_challenge env inp st).1 = ECError.SUCCESS) :
    (rma_create_challenge env inp st).2.authcode =
      (dataSymbols
        (env.hmac
          (env.x25519 ((inp.eph_priv ++ List.replicate 32 0).take 32)
            env.server_pub_key)
          ((mkChallenge env inp bid).bytes.drop 1))
        (RMA_AUTHCODE_CHARS * 5)).map base32_char ++ [0] ∧
    ((dataSymbols
        (env.hmac
          (env.x25519 ((inp.eph_priv ++ List.replicate 32 0).take 32)
            env.server_pub_key)
          ((mkChallenge env inp bid).bytes.drop 1))
        (RMA_AUTHCODE_CHARS * 5)).map base32_char).length =
      RMA_AUTHCODE_CHARS ∧
    dataSymbols
        (env.hmac
          (env.x25519 ((inp.eph_priv ++ List.replicate 32 0).take 32)
            env.server_pub_key)
          ((mkChallenge env inp bid).bytes.drop 1))
        (RMA_AUTHCODE_CHARS * 5) =
      dataSymbols
        ((env.hmac
          (env.x25519 ((inp.eph_priv ++ List.replicate 32 0).take 32)
            env.server_pub_key)
          ((mkChallenge env inp bid).bytes.drop 1)).take 5)
        (RMA_AUTHCODE_CHARS * 5) := by
  set tag := env.hmac
    (env.x25519 ((inp.eph_priv ++ List.replicate 32 0).take 32)
      env.server_pub_key)
    ((mkChallenge env inp bid).bytes.drop 1) with htag
  have hlen : ((dataSymbols tag (RMA_AUTHCODE_CHARS * 5)).map base32_char).length =
      RMA_AUTHCODE_CHARS := by
    rw [List.length_map, dataSymbols_length]
    decide
  refine ⟨?_, hlen, (dataSymbols_first_five tag).symm⟩
  unfold rma_create_challenge at hs ⊢
  dsimp only at hs ⊢
  by_cases h1 : u64_sub inp.t st.last_challenge_time < CHALLENGE_INTERVAL
  · rw [if_pos h1] at hs; simp at hs
  rw [if_neg h1] at hs ⊢
  rw [hb] at hs ⊢
  dsimp only at hs ⊢
  rw [← htag] at hs ⊢
  cases hc : base32_encode env.crc5 RMA_CHALLENGE_BUF_SIZE
      (mkChallenge env inp bid).bytes (8 * rmaChallengeSizeof) 9 with
  | error e => rw [hc] at hs; simp at hs
  | ok chars =>
    rw [hc] at hs
    dsimp only at hs ⊢
    cases ha : base32_encode env.crc5 RMA_AUTHCODE_BUF_SIZE tag
        (RMA_AUTHCODE_CHARS * 5) 0 with
    | error e => rw [ha] at hs; simp at hs
    | ok ac =>
      dsimp only
      unfold base32_encode at ha
      dsimp only at ha
      rw [if_pos rfl] at ha
      rw [if_neg (by rw [hlen]; decide)] at ha
      injection ha with ha'
      subst ha'
      rw [hlen]
      rfl

/-- C3 witness: the derivation at the concrete successful call. -/
theorem c3_authcode_derivation_witness :
    stArmed.authcode =
      (dataSymbols
        (envC.hmac
          (envC.x25519 ((inpC.eph_priv ++ List.replicate 32 0).take 32)
            envC.server_pub_key)
          ((mkChallenge envC inpC [10, 11, 12, 13]).bytes.drop 1))
        (RMA_AUTHCODE_CHARS * 5)).map base32_char ++ [0] :=
  (c3_authcode_derivation envC inpC initState [10, 11, 12, 13] rfl
    (by decide)).1

/-- C6: the `device_id` field of the challenge record is the device unique
id copied verbatim (zero-padded to 8 bytes) when the id is at most 8 bytes,
and the first 8 bytes of HMAC-SHA-256 with both key and message equal to
the id when it is longer; consequently two `rma_create_challenge` calls
with the same device unique id — at any times, board ids and ephemeral
keys — produce the same `device_id` field. -/
theorem c6_device_id (env : RmaEnv) (inp inp2 : CreateInputs)
    (bid bid2 : List Nat)
    (h32 : (env.hmac inp.device_unique_id inp.device_unique_id).length = 32)
    (heq : inp.device_unique_id = inp2.device_unique_id) :
    (inp.device_unique_id.length ≤ 8 →
      (mkChallenge env inp bid).device_id =
        inp.device_unique_id ++
          List.replicate (8 - inp.device_unique_id.length) 0) ∧
    (8 < inp.device_unique_id.length →
      (mkChallenge env inp bid).device_id =
        (env.hmac inp.device_unique_id inp.device_unique_id).take 8) ∧
    (mkChallenge env inp bid).device_id = (mkChallenge env inp2 bid2).device_id := by
  refine ⟨?_, ?_, ?_⟩
  · intro h
    show deviceIdField env inp.device_unique_id = _
    unfold deviceIdField
    rw [if_pos h]
  · intro h
    show deviceIdField env inp.device_unique_id = _
    unfold deviceIdField hash_buffer
    rw [if_neg (by omega), List.take_append_of_le_length (by omega)]
  · show deviceIdField env inp.device_unique_id =
      deviceIdField env inp2.device_unique_id
    rw [heq]

/-- C6 witness: the two concrete calls `inpC` and `inpSoon` share the
device unique id and get the same `device_id` field. -/
theorem c6_device_id_witness :
    (mkChallenge envC inpC [10, 11, 12, 13]).device_id =
      (mkChallenge envC inpSoon [9, 9, 9, 9]).device_id :=
  (c6_device_id envC inpC inpSoon [10, 11, 12, 13] [9, 9, 9, 9] rfl rfl).2.2

/-- A bitwise or of naturals is zero exactly when both sides are zero. -/
theorem nat_or_eq_zero (a b : Nat) : a ||| b = 0 ↔ a = 0 ∧ b = 0 := by
  constructor
  · intro h
    constructor
    · apply Nat.eq_of_testBit_eq
      intro i
      have hb := congrArg (fun n => Nat.testBit n i) h
      simp only [Nat.testBit_lor, Nat.zero_testBit] at hb
      rcases Bool.or_eq_false_iff.mp hb with ⟨h1, h2⟩
      simp [h1]
    · apply Nat.eq_of_testBit_eq
      intro i
      have hb := congrArg (fun n => Nat.testBit n i) h
      simp only [Nat.testBit_lor, Nat.zero_testBit] at hb
      rcases Bool.or_eq_false_iff.mp hb with ⟨h1, h2⟩
      simp [h2]
  · rintro ⟨rfl, rfl⟩; rfl

/-- Folding bitwise or over a list yields zero exactly when the accumulator
and every element are zero. -/
theorem foldl_or_eq_zero (l : List Nat) (a : Nat) :
    l.foldl (fun x y => x ||| y) a = 0 ↔ a = 0 ∧ ∀ x ∈ l, x = 0 := by
  induction l generalizing a with
  | nil => simp
  | cons x l ih =>
      simp only [List.foldl_cons, List.mem_cons]
      rw [ih, nat_or_eq_zero]
      constructor
      · rintro ⟨⟨h1, h2⟩, h3⟩
        exact ⟨h1, fun y hy => hy.elim (fun e => e ▸ h2) (h3 y)⟩
      · rintro ⟨h1, h2⟩
        exact ⟨⟨h1, h2 x (Or.inl rfl)⟩, fun y hy => h2 y (Or.inr hy)⟩

/-- The accumulated difference of `safe_memcmp` over all 8 byte positions is
zero exactly when every one of the 8 bytes matches: the comparison result
depends only on whole-vector equality, not on the position of the first
difference. -/
theorem safe_memcmp_eq_zero (a b : List Nat) :
    safe_memcmp a b RMA_AUTHCODE_CHARS = 0 ↔
      ∀ i < RMA_AUTHCODE_CHARS, a.getD i 0 = b.getD i 0 := by
  unfold safe_memcmp
  rw [foldl_or_eq_zero]
  constructor
  · rintro ⟨-, h⟩ i hi
    have hx := h (Nat.xor (a.getD i 0) (b.getD i 0))
      (List.mem_map.mpr ⟨i, List.mem_range.mpr hi, rfl⟩)
    exact Nat.xor_eq_zero.mp hx
  · intro h
    refine ⟨rfl, ?_⟩
    intro x hx
    rcases List.mem_map.mp hx with ⟨i, hi, rfl⟩
    exact Nat.xor_eq_zero.mpr (h i (List.mem_range.mp hi))

/-- C7 (amended): the authcode comparison is value-uniform — `safe_memcmp`
accumulates the differences of all `RMA_AUTHCODE_CHARS` bytes and reports a
match exactly when all 8 bytes agree — but the claim that no secret
material is ever emitted is false: on every successful create-challenge
request the console output consists of the challenge reply followed by the
expected authcode itself. -/
theorem c7_console_and_compare :
    (∀ (env : RmaEnv) (inp : CreateInputs) (st : RmaState) (bs : Nat),
      (get_challenge env inp st bs).rc = VendorRc.SUCCESS →
      (get_challenge env inp st bs).console =
        (get_challenge env inp st bs).reply ++
          (get_challenge env inp st bs).state.authcode.take RMA_AUTHCODE_CHARS) ∧
    (∀ a b : List Nat,
      safe_memcmp a b RMA_AUTHCODE_CHARS = 0 ↔
        ∀ i < RMA_AUTHCODE_CHARS, a.getD i 0 = b.getD i 0) := by
  refine ⟨?_, safe_memcmp_eq_zero⟩
  intro env inp st bs h
  unfold get_challenge at h ⊢
  by_cases h1 : bs < RMA_CHALLENGE_BUF_SIZE
  · rw [if_pos h1] at h; simp at h
  rw [if_neg h1] at h ⊢
  dsimp only at h ⊢
  by_cases h2 : (rma_create_challenge env inp st).1 ≠ ECError.SUCCESS
  · rw [if_pos h2] at h; simp at h
  rw [if_neg h2]

/-- C7 counterexample: on the concrete successful create-challenge request
the console output ends with the 8 characters of the stored (secret)
authcode, so the expected authcode is emitted on the console. -/
theorem c7_counterexample :
    (get_challenge envC inpC initState 81).rc = VendorRc.SUCCESS ∧
    (get_challenge envC inpC initState 81).state.authcode.take
        RMA_AUTHCODE_CHARS = List.replicate 8 65 ∧
    (get_challenge envC inpC initState 81).console.drop 80 =
      List.replicate 8 65 := by
  decide

/-- C7 witness: the amended statement at the concrete request. -/
theorem c7_console_and_compare_witness :
    (get_challenge envC inpC initState RMA_CHALLENGE_BUF_SIZE).console =
      (get_challenge envC inpC initState RMA_CHALLENGE_BUF_SIZE).reply ++
        (get_challenge envC inpC initState
          RMA_CHALLENGE_BUF_SIZE).state.authcode.take RMA_AUTHCODE_CHARS :=
  c7_console_and_compare.1 envC inpC initState RMA_CHALLENGE_BUF_SIZE
    (by decide)

/-- Chunking a list whose length is an exact multiple of the chunk size
yields exactly `k` chunks of `n` elements each. -/
theorem chunk_exact (n k : Nat) (hn : 0 < n) (l : List Nat)
    (h : l.length = n * k) :
    (chunk n l).length = k ∧ ∀ g ∈ chunk n l, g.length = n := by
  unfold chunk
  rw [if_neg (by omega)]
  have hdiv : (l.length + n - 1) / n = k := by
    have he : l.length + n - 1 = n * k + (n - 1) := by omega
    rw [he, Nat.mul_add_div hn, Nat.div_eq_of_lt (by omega)]
    rfl
  constructor
  · rw [List.length_map, List.length_range, hdiv]
  · intro g hg
    rcases List.mem_map.mp hg with ⟨i, hi, rfl⟩
    rw [List.mem_range, hdiv] at hi
    rw [List.length_take, List.length_drop, h]
    have h1 : (i + 1) * n ≤ k * n := Nat.mul_le_mul_right n hi
    have h2 : i * n + n = (i + 1) * n := by ring
    have h3 : n * k = k * n := Nat.mul_comm n k
    exact Nat.min_eq_left (by omega)

/-- With 72 data symbols and a checksum after every 9, the encoder output
has 80 symbols. -/
theorem withChecks_length_72 (crc5 : Nat → List Nat → Nat) (syms : List Nat)
    (h : syms.length = 72) :
    (withChecks crc5 9 syms).length = 80 := by
  obtain ⟨hc, hg⟩ := chunk_exact 9 8 (by omega) syms (by omega)
  unfold withChecks
  rw [List.length_flatten, List.map_map]
  have hmem : ∀ x ∈ ((chunk 9 syms).enum.map
      (List.length ∘ fun p => p.2 ++ [crc5 p.1 p.2])), x = 10 := by
    intro x hx
    rcases List.mem_map.mp hx with ⟨p, hp, rfl⟩
    rcases p with ⟨i, g⟩
    obtain ⟨hi, hgi⟩ := List.mem_enum hp
    have hglen : g.length = 9 := by
      refine hg g ?_
      rw [hgi]
      exact List.getElem_mem hi
    simp [hglen]
  rw [List.eq_replicate_of_mem hmem, List.sum_replicate, List.length_map,
    List.enum_length, hc]
  simp

/-- C4 (amended): on a successful `rma_create_challenge`, the stored
challenge string is the base-32 encoding of the `8 * 45 = 360` bits of the
challenge record — 72 data symbols — with a checksum symbol inserted after
every 9 data symbols (the literal group parameter at
`src/common/rma_auth.c:127` is 9, not 8): 8 groups of 10 characters, 9 data
symbols followed by 1 checksum symbol, for 80 characters in total. -/
theorem c4_challenge_encoding (env : RmaEnv) (inp : CreateInputs)
    (st : RmaState) (bid : List Nat) (hb : inp.board_id = some bid)
    (hs : (rma_create_challenge env inp st).1 = ECError.SUCCESS) :
    (rma_create_challenge env inp st).2.challenge =
      (withChecks env.crc5 9
        (dataSymbols (mkChallenge env inp bid).bytes
          (8 * rmaChallengeSizeof))).map base32_char ++ [0] ∧
    (dataSymbols (mkChallenge env inp bid).bytes
      (8 * rmaChallengeSizeof)).length = 72 ∧
    (chunk 9 (dataSymbols (mkChallenge env inp bid).bytes
      (8 * rmaChallengeSizeof))).length = 8 ∧
    (∀ g ∈ chunk 9 (dataSymbols (mkChallenge env inp bid).bytes
      (8 * rmaChallengeSizeof)), g.length = 9) ∧
    ((withChecks env.crc5 9
        (dataSymbols (mkChallenge env inp bid).bytes
          (8 * rmaChallengeSizeof))).map base32_char).length =
      RMA_CHALLENGE_CHARS := by
  set syms := dataSymbols (mkChallenge env inp bid).bytes
    (8 * rmaChallengeSizeof) with hsy
  have hlen72 : syms.length = 72 := by
    rw [hsy, dataSymbols_length]
    decide
  obtain ⟨hc8, hg9⟩ := chunk_exact 9 8 (by omega) syms (by omega)
  have hw : (withChecks env.crc5 9 syms).length = 80 :=
    withChecks_length_72 env.crc5 syms hlen72
  have hwm : ((withChecks env.crc5 9 syms).map base32_char).length =
      RMA_CHALLENGE_CHARS := by
    rw [List.length_map, hw]
    rfl
  refine ⟨?_, hlen72, hc8, hg9, hwm⟩
  unfold rma_create_challenge at hs ⊢
  dsimp only at hs ⊢
  by_cases h1 : u64_sub inp.t st.last_challenge_time < CHALLENGE_INTERVAL
  · rw [if_pos h1] at hs; simp at hs
  rw [if_neg h1] at hs ⊢
  rw [hb] at hs ⊢
  dsimp only at hs ⊢
  cases hc : base32_encode env.crc5 RMA_CHALLENGE_BUF_SIZE
      (mkChallenge env inp bid).bytes (8 * rmaChallengeSizeof) 9 with
  | error e => rw [hc] at hs; simp at hs
  | ok chars =>
    rw [hc] at hs
    dsimp only at hs ⊢
    unfold base32_encode at hc
    dsimp only at hc
    rw [← hsy] at hc
    rw [if_neg (show ¬((9 : Nat) = 0) from by decide)] at hc
    rw [if_neg (by rw [List.length_map, hw]; decide)] at hc
    injection hc with hc'
    subst hc'
    cases ha : base32_encode env.crc5 RMA_AUTHCODE_BUF_SIZE
        (env.hmac
          (env.x25519 ((inp.eph_priv ++ List.replicate 32 0).take 32)
            env.server_pub_key)
          ((mkChallenge env inp bid).bytes.drop 1))
        (RMA_AUTHCODE_CHARS * 5) 0 with
    | error e => rw [ha] at hs; simp at hs
    | ok ac =>
      dsimp only
      rw [hwm]
      rfl

set_option maxRecDepth 100000 in
/-- C4 counterexample: the stored challenge of the concrete successful call
is 80 characters, while the claim's encoding — 512 source bits with a
checksum after every 8 data symbols, groups of 9 characters — would be 116
characters; the stored challenge is not that encoding. -/
theorem c4_counterexample :
    (rma_create_challenge envC inpC initState).1 = ECError.SUCCESS ∧
    ((rma_create_challenge envC inpC initState).2.challenge.takeWhile
        (fun c => c ≠ 0)).length = 80 ∧
    ((withChecks envC.crc5 8
        (dataSymbols (mkChallenge envC inpC [10, 11, 12, 13]).bytes
          512)).map base32_char).length = 116 ∧
    (rma_create_challenge envC inpC initState).2.challenge.takeWhile
        (fun c => c ≠ 0) ≠
      (withChecks envC.crc5 8
        (dataSymbols (mkChallenge envC inpC [10, 11, 12, 13]).bytes
          512)).map base32_char := by
  decide

/-- C4 witness: the amended statement at the concrete successful call. -/
theorem c4_challenge_encoding_witness :
    stArmed.challenge =
      (withChecks envC.crc5 9
        (dataSymbols (mkChallenge envC inpC [10, 11, 12, 13]).bytes
          (8 * rmaChallengeSizeof))).map base32_char ++ [0] :=
  (c4_challenge_encoding envC inpC initState [10, 11, 12, 13] rfl
    (by decide)).1

end RmaAuth
